import Mathlib

/-!
Verification of the Firebase LED poller sketch (`src/code.ino`).

The sketch polls `/leds.json` over HTTPS once every 2000 ms, searches the raw
response body for the literal substrings `"red":true`, `"green":true`,
`"blue":true`, and drives three digital output pins accordingly.

Embedding: each procedure of the sketch is modelled as the trace of
externally visible events it emits (pin-mode configuration, digital writes,
WiFi calls, the HTTP GET, serial prints, the delay).  The effect of a trace
on the physical pin levels is given by `runEvents`.  The HTTP response of a
cycle (status code and body text) is an input to `loop`, exactly as
`fetchFirebase` surfaces it to the caller in the sketch.  Arduino's
`String.indexOf` is modelled by `stringIndexOf` (index of the first
occurrence, `-1` when absent), and the sketch's `indexOf(...) >= 0` tests
appear verbatim as `0 ≤ stringIndexOf ...`.
-/

namespace HDArduino

/-- A hardware pin identifier (`int` pin numbers in the sketch). -/
abbrev Pin := Nat

/-- `const int RED = 2;` -/
def RED : Pin := 2

/-- `const int GREEN = 3;` -/
def GREEN : Pin := 3

/-- `const int BLUE = 4;` -/
def BLUE : Pin := 4

/-- Externally visible actions the sketch performs, in program order. -/
inductive Event where
  | serialBegin (baud : Nat)
  | serialOut (msg : List Char)
  | pinModeOutput (pin : Pin)
  | digitalWrite (pin : Pin) (level : Bool)
  | wifiBegin
  | wifiAwaitConnected
  | httpGet (path : List Char)
  | delayMs (ms : Nat)
deriving DecidableEq

/-- Arduino `String.indexOf(pattern)`: index of the first occurrence of
`pat` in `hay`, or `-1` when `pat` does not occur.  (`int` return type.) -/
def stringIndexOf (hay pat : List Char) : Int :=
  match hay with
  | [] => if List.isPrefixOf pat [] then 0 else -1
  | c :: t =>
    if List.isPrefixOf pat (c :: t) then 0
    else
      let r := stringIndexOf t pat
      if r < 0 then -1 else r + 1

/-- The literal `"red":true` searched for by `applyLEDsFromResponse`. -/
def redMarker : List Char := String.toList "\"red\":true"

/-- The literal `"green":true` searched for by `applyLEDsFromResponse`. -/
def greenMarker : List Char := String.toList "\"green\":true"

/-- The literal `"blue":true` searched for by `applyLEDsFromResponse`. -/
def blueMarker : List Char := String.toList "\"blue\":true"

/-- `setLED(pin, on, name)`: writes the pin HIGH and prints `<name> LED ON`
when `on`, writes the pin LOW (no print) otherwise.  HIGH is `true`,
LOW is `false`.  (The sketch's parameter `on` is a reserved word in Lean,
hence `turnOn`.) -/
def setLED (pin : Pin) (turnOn : Bool) (name : List Char) : List Event :=
  if turnOn then
    [Event.digitalWrite pin true,
     Event.serialOut (name ++ String.toList " LED ON")]
  else
    [Event.digitalWrite pin false]

/-- `applyLEDsFromResponse(response)`: three independent substring tests,
each followed by the corresponding `setLED` call, in the order red,
green, blue. -/
def applyLEDsFromResponse (response : List Char) : List Event :=
  (if 0 ≤ stringIndexOf response redMarker then
     setLED RED true (String.toList "Red")
   else
     setLED RED false (String.toList "Red")) ++
  (if 0 ≤ stringIndexOf response greenMarker then
     setLED GREEN true (String.toList "Green")
   else
     setLED GREEN false (String.toList "Green")) ++
  (if 0 ≤ stringIndexOf response blueMarker then
     setLED BLUE true (String.toList "Blue")
   else
     setLED BLUE false (String.toList "Blue"))

/-- `initSerialAndLEDs()`: start Serial, configure the three pins as
outputs, write all three LOW, print a diagnostic line. -/
def initSerialAndLEDs : List Event :=
  [Event.serialBegin 9600,
   Event.pinModeOutput RED, Event.pinModeOutput GREEN, Event.pinModeOutput BLUE,
   Event.digitalWrite RED false, Event.digitalWrite GREEN false,
   Event.digitalWrite BLUE false,
   Event.serialOut (String.toList "LED pins initialized and turned OFF.")]

/-- `connectWiFi()`: begin association and block until connected.  The
unbounded `while (WiFi.status() != WL_CONNECTED)` polling loop (dots and
500 ms delays) is abstracted as the single blocking event
`wifiAwaitConnected`; the final IP-address print depends on external
network state and is represented by its fixed prefix. -/
def connectWiFi : List Event :=
  [Event.serialOut (String.toList "Connecting to WiFi..."),
   Event.wifiBegin,
   Event.wifiAwaitConnected,
   Event.serialOut (String.toList "WiFi Connected!"),
   Event.serialOut (String.toList "IP Address: ")]

/-- `setup()`: `initSerialAndLEDs()` then `connectWiFi()`. -/
def setup : List Event := initSerialAndLEDs ++ connectWiFi

/-- One iteration of `loop()`.  `statusCode` and `response` are the values
`fetchFirebase` obtains from the HTTP client for this cycle; `fetchFirebase`
itself performs the GET (event `httpGet`) and returns them. -/
def loop (statusCode : Int) (response : List Char) : List Event :=
  [Event.serialOut (String.toList "Checking Firebase..."),
   Event.httpGet (String.toList "/leds.json")] ++
  (if statusCode = 200 then
     Event.serialOut (String.toList "Firebase response: " ++ response)
       :: applyLEDsFromResponse response
   else
     [Event.serialOut (String.toList "Firebase error: "
       ++ String.toList (toString statusCode))]) ++
  [Event.delayMs 2000]

/-- The physical level of every pin: `true` is HIGH, `false` is LOW. -/
abbrev PinState := Pin → Bool

/-- Effect of one event on the pin levels: only `digitalWrite` changes them. -/
def stepEvent (s : PinState) (e : Event) : PinState :=
  match e with
  | Event.digitalWrite p lvl => fun q => if q = p then lvl else s q
  | _ => s

/-- Pin levels after emitting a trace from state `s`. -/
def runEvents (es : List Event) (s : PinState) : PinState :=
  List.foldl stepEvent s es

/-- The digital writes of a trace, in order, as (pin, level) pairs. -/
def writesOf (es : List Event) : List (Pin × Bool) :=
  List.filterMap
    (fun e => match e with
      | Event.digitalWrite p lvl => some (p, lvl)
      | _ => none) es

/-- Pin levels after a sequence of poll cycles, each given by its status
code and body text, starting from state `s`. -/
def runCycles (cycles : List (Int × List Char)) (s : PinState) : PinState :=
  List.foldl (fun st c => runEvents (loop c.1 c.2) st) s cycles

/-- The whole program: `setup()` once, then one `loop()` per cycle. -/
def programTrace (cycles : List (Int × List Char)) : List Event :=
  setup ++ List.flatten (List.map (fun c => loop c.1 c.2) cycles)

/-- The all-LOW pin state. -/
def lowState : PinState := fun _ => false

/-- Spec-side notion: `hay` contains `pat` as a contiguous substring. -/
def containsSubstr (pat hay : List Char) : Prop :=
  ∃ u v, hay = u ++ pat ++ v

/-- `List.isPrefixOf` decides prefix-hood (over `Char`). -/
lemma isPrefixOf_eq_true_iff (l₁ l₂ : List Char) :
    List.isPrefixOf l₁ l₂ = true ↔ ∃ t, l₂ = l₁ ++ t := by
  induction l₁ generalizing l₂ with
  | nil =>
    simp [List.isPrefixOf]
  | cons a as ih =>
    cases l₂ with
    | nil => simp [List.isPrefixOf]
    | cons b bs =>
      simp only [List.isPrefixOf, Bool.and_eq_true, beq_iff_eq, ih,
        List.cons_append, List.cons.injEq]
      constructor
      · rintro ⟨rfl, t, rfl⟩
        exact ⟨t, rfl, rfl⟩
      · rintro ⟨t, rfl, rfl⟩
        exact ⟨rfl, t, rfl⟩

/-- A substring of `c :: t` either starts at position 0 or lies in `t`. -/
lemma containsSubstr_cons_iff (pat : List Char) (c : Char) (t : List Char) :
    containsSubstr pat (c :: t) ↔
      (∃ v, c :: t = pat ++ v) ∨ containsSubstr pat t := by
  constructor
  · rintro ⟨u, v, h⟩
    cases u with
    | nil => exact Or.inl ⟨v, h⟩
    | cons a u' =>
      simp only [List.cons_append, List.cons.injEq] at h
      exact Or.inr ⟨u', v, h.2⟩
  · rintro (⟨v, h⟩ | ⟨u, v, h⟩)
    · exact ⟨[], v, h⟩
    · exact ⟨c :: u, v, by simp [h]⟩

/-- The sketch's `indexOf(...) >= 0` test is exactly substring containment. -/
lemma stringIndexOf_nonneg_iff (pat hay : List Char) :
    0 ≤ stringIndexOf hay pat ↔ containsSubstr pat hay := by
  induction hay with
  | nil =>
    have h1 : List.isPrefixOf pat ([] : List Char) = true ↔ pat = [] := by
      rw [isPrefixOf_eq_true_iff]
      constructor
      · rintro ⟨t, ht⟩
        exact (List.append_eq_nil.mp ht.symm).1
      · rintro rfl
        exact ⟨[], rfl⟩
    have h2 : containsSubstr pat [] ↔ pat = [] := by
      constructor
      · rintro ⟨u, v, huv⟩
        rcases List.append_eq_nil.mp huv.symm with ⟨h3, hv⟩
        exact (List.append_eq_nil.mp h3).2
      · rintro rfl
        exact ⟨[], [], rfl⟩
    by_cases h : List.isPrefixOf pat ([] : List Char) = true
    · simp only [stringIndexOf, if_pos h]
      rw [h2]
      simp [h1.mp h]
    · simp only [stringIndexOf, if_neg h]
      rw [h2]
      constructor
      · intro h0
        exact absurd h0 (by norm_num)
      · intro hp
        exact absurd (h1.mpr hp) h
  | cons c t ih =>
    by_cases hp : List.isPrefixOf pat (c :: t) = true
    · simp only [stringIndexOf, if_pos hp]
      rw [isPrefixOf_eq_true_iff] at hp
      obtain ⟨v, hv⟩ := hp
      constructor
      · intro _
        exact ⟨[], v, by simpa using hv⟩
      · intro _
        norm_num
    · simp only [stringIndexOf, if_neg hp]
      rw [containsSubstr_cons_iff]
      have hnotpre : ¬ ∃ v, c :: t = pat ++ v := by
        intro hex
        exact hp ((isPrefixOf_eq_true_iff pat (c :: t)).mpr hex)
      constructor
      · intro h0
        by_cases hr : stringIndexOf t pat < 0
        · rw [if_pos hr] at h0
          exact absurd h0 (by norm_num)
        · rw [if_neg hr] at h0
          exact Or.inr (ih.mp (by omega))
      · rintro (hex | hc)
        · exact absurd hex hnotpre
        · have h0 : 0 ≤ stringIndexOf t pat := ih.mpr hc
          rw [if_neg (by omega)]
          omega

/-- The last write a trace performs on pin `p`, if any. -/
def lastWrite (es : List Event) (p : Pin) : Option Bool :=
  match es with
  | [] => none
  | e :: t =>
    match lastWrite t p with
    | some l => some l
    | none =>
      match e with
      | Event.digitalWrite q l => if p = q then some l else none
      | _ => none

/-- A pin's level after a trace is its last written level, or its previous
level when the trace never writes it. -/
lemma runEvents_pin_eq (es : List Event) (s : PinState) (p : Pin) :
    runEvents es s p = (lastWrite es p).getD (s p) := by
  induction es generalizing s with
  | nil => rfl
  | cons e t ih =>
    show runEvents t (stepEvent s e) p = _
    rw [ih]
    cases hlw : lastWrite t p with
    | some l => simp [lastWrite, hlw]
    | none =>
      cases e with
      | digitalWrite q l =>
        simp only [lastWrite, hlw, stepEvent]
        by_cases hpq : p = q
        · simp [hpq]
        · simp [hpq]
      | serialBegin b => simp [lastWrite, hlw, stepEvent]
      | serialOut m => simp [lastWrite, hlw, stepEvent]
      | pinModeOutput q => simp [lastWrite, hlw, stepEvent]
      | wifiBegin => simp [lastWrite, hlw, stepEvent]
      | wifiAwaitConnected => simp [lastWrite, hlw, stepEvent]
      | httpGet q => simp [lastWrite, hlw, stepEvent]
      | delayMs m => simp [lastWrite, hlw, stepEvent]

/-- Replaying any trace on its own result changes nothing: every write is
of a constant level, so the last write to each pin wins both times. -/
lemma runEvents_self_absorb (es : List Event) (s : PinState) :
    runEvents es (runEvents es s) = runEvents es s := by
  funext p
  rw [runEvents_pin_eq, runEvents_pin_eq]
  cases lastWrite es p <;> simp

/-- A non-200 cycle performs no digital write and leaves every pin as it was. -/
lemma loop_ne_200 (sc : Int) (r : List Char) (s : PinState) (h : ¬ sc = 200) :
    writesOf (loop sc r) = [] ∧ runEvents (loop sc r) s = s := by
  constructor
  · simp [loop, if_neg h, writesOf]
  · simp [loop, if_neg h, runEvents, stepEvent]

/-- Pin levels at the three LED pins after a 200 cycle are exactly the
three substring-test results. -/
lemma runEvents_loop_200 (r : List Char) (s : PinState) :
    runEvents (loop 200 r) s RED = decide (0 ≤ stringIndexOf r redMarker) ∧
    runEvents (loop 200 r) s GREEN = decide (0 ≤ stringIndexOf r greenMarker) ∧
    runEvents (loop 200 r) s BLUE = decide (0 ≤ stringIndexOf r blueMarker) := by
  by_cases hr : 0 ≤ stringIndexOf r redMarker <;>
  by_cases hg : 0 ≤ stringIndexOf r greenMarker <;>
  by_cases hb : 0 ≤ stringIndexOf r blueMarker <;>
    simp [loop, applyLEDsFromResponse, setLED, runEvents, stepEvent,
      RED, GREEN, BLUE, hr, hg, hb]

/-- The ordered list of digital writes of a 200 cycle. -/
lemma writesOf_loop_200 (r : List Char) :
    writesOf (loop 200 r) =
      [(RED, decide (0 ≤ stringIndexOf r redMarker)),
       (GREEN, decide (0 ≤ stringIndexOf r greenMarker)),
       (BLUE, decide (0 ≤ stringIndexOf r blueMarker))] := by
  by_cases hr : 0 ≤ stringIndexOf r redMarker <;>
  by_cases hg : 0 ≤ stringIndexOf r greenMarker <;>
  by_cases hb : 0 ≤ stringIndexOf r blueMarker <;>
    simp [loop, applyLEDsFromResponse, setLED, writesOf, hr, hg, hb]

/-- Cycles that all miss status 200 never change the pin state. -/
lemma runCycles_ne_200 (cs : List (Int × List Char)) (s : PinState)
    (h : ∀ c ∈ cs, ¬ c.1 = 200) : runCycles cs s = s := by
  induction cs generalizing s with
  | nil => rfl
  | cons c t ih =>
    show runCycles t (runEvents (loop c.1 c.2) s) = s
    rw [(loop_ne_200 c.1 c.2 s (h c (List.mem_cons_self c t))).2]
    exact ih s fun d hd => h d (List.mem_cons_of_mem c hd)

/-- `containsSubstr` restated through the sketch's `indexOf` test. -/
lemma containsSubstr_iff_nonneg (pat hay : List Char) :
    containsSubstr pat hay ↔ 0 ≤ stringIndexOf hay pat :=
  (stringIndexOf_nonneg_iff pat hay).symm

/-- Recognises the `delay(...)` event of a trace. -/
def isDelayEvent : Event → Bool
  | Event.delayMs _ => true
  | _ => false

/-- The body used by Scenario 5: truncated, malformed JSON. -/
def truncatedBody : List Char := String.toList "\x7b\"red\":true"

/-- Claim C1: in a cycle with status code 200, each LED pin ends HIGH iff
the body contains the literal, case-sensitive marker substring for its
key; absence of the marker (malformed, truncated, empty body, or explicit
false) leaves that pin LOW. -/
theorem c1_marker_iff_pin_high (r : List Char) (s : PinState) :
    (runEvents (loop 200 r) s RED = true ↔ containsSubstr redMarker r) ∧
    (runEvents (loop 200 r) s GREEN = true ↔ containsSubstr greenMarker r) ∧
    (runEvents (loop 200 r) s BLUE = true ↔ containsSubstr blueMarker r) := by
  obtain ⟨h1, h2, h3⟩ := runEvents_loop_200 r s
  rw [h1, h2, h3]
  simp [decide_eq_true_eq, stringIndexOf_nonneg_iff]

/-- Claim C2: a cycle whose status code is not 200 performs no digital
write, and every pin's level after the cycle equals its level before. -/
theorem c2_non200_holds_pins (sc : Int) (r : List Char) (s : PinState)
    (h : ¬ sc = 200) :
    writesOf (loop sc r) = [] ∧ runEvents (loop sc r) s = s :=
  loop_ne_200 sc r s h

/-- Witness for C2 at status 404 with an empty body. -/
theorem c2_non200_holds_pins_witness :
    ¬ (404 : Int) = 200 ∧
      (writesOf (loop 404 []) = [] ∧ runEvents (loop 404 []) lowState = lowState) :=
  ⟨by decide, c2_non200_holds_pins 404 [] lowState (by decide)⟩

/-- Claim C3: two bodies whose red-marker and blue-marker occurrences agree
(only the green part may differ) produce the same red pin level and the
same blue pin level; each decision depends only on its own marker. -/
theorem c3_green_independent (b1 b2 : List Char) (s : PinState)
    (hred : containsSubstr redMarker b1 ↔ containsSubstr redMarker b2)
    (hblue : containsSubstr blueMarker b1 ↔ containsSubstr blueMarker b2) :
    runEvents (loop 200 b1) s RED = runEvents (loop 200 b2) s RED ∧
    runEvents (loop 200 b1) s BLUE = runEvents (loop 200 b2) s BLUE := by
  obtain ⟨h1, _, h3⟩ := runEvents_loop_200 b1 s
  obtain ⟨h1', _, h3'⟩ := runEvents_loop_200 b2 s
  rw [h1, h1', h3, h3']
  rw [containsSubstr_iff_nonneg, containsSubstr_iff_nonneg] at hred hblue
  exact ⟨decide_eq_decide.mpr hred, decide_eq_decide.mpr hblue⟩

/-- Witness for C3: a body with only a green marker versus an empty object. -/
theorem c3_green_independent_witness :
    ((containsSubstr redMarker (String.toList "\x7b\"green\":true\x7d") ↔
        containsSubstr redMarker (String.toList "\x7b\x7d")) ∧
     (containsSubstr blueMarker (String.toList "\x7b\"green\":true\x7d") ↔
        containsSubstr blueMarker (String.toList "\x7b\x7d"))) ∧
    (runEvents (loop 200 (String.toList "\x7b\"green\":true\x7d")) lowState RED =
       runEvents (loop 200 (String.toList "\x7b\x7d")) lowState RED ∧
     runEvents (loop 200 (String.toList "\x7b\"green\":true\x7d")) lowState BLUE =
       runEvents (loop 200 (String.toList "\x7b\x7d")) lowState BLUE) := by
  have hred : containsSubstr redMarker (String.toList "\x7b\"green\":true\x7d") ↔
      containsSubstr redMarker (String.toList "\x7b\x7d") := by
    rw [containsSubstr_iff_nonneg, containsSubstr_iff_nonneg]
    decide
  have hblue : containsSubstr blueMarker (String.toList "\x7b\"green\":true\x7d") ↔
      containsSubstr blueMarker (String.toList "\x7b\x7d") := by
    rw [containsSubstr_iff_nonneg, containsSubstr_iff_nonneg]
    decide
  exact ⟨⟨hred, hblue⟩, c3_green_independent _ _ lowState hred hblue⟩

/-- Claim C4: applying the same body in two consecutive 200 cycles yields
identical pin levels after each application; the apply step is idempotent
and keeps no hidden toggle state. -/
theorem c4_apply_idempotent (r : List Char) (s : PinState) :
    runEvents (loop 200 r) (runEvents (loop 200 r) s) =
      runEvents (loop 200 r) s :=
  runEvents_self_absorb (loop 200 r) s

/-- Claim C5: the truncated, malformed body consisting of an opening brace
followed by the red marker, at status 200, drives RED HIGH and GREEN and
BLUE LOW, from any prior pin state. -/
theorem c5_truncated_body_red_high (s : PinState) :
    runEvents (loop 200 truncatedBody) s RED = true ∧
    runEvents (loop 200 truncatedBody) s GREEN = false ∧
    runEvents (loop 200 truncatedBody) s BLUE = false := by
  obtain ⟨h1, h2, h3⟩ := runEvents_loop_200 truncatedBody s
  rw [h1, h2, h3]
  refine ⟨?_, ?_, ?_⟩ <;> decide

/-- No iteration of `loop` begins WiFi association. -/
lemma wifiBegin_not_mem_loop (sc : Int) (r : List Char) :
    Event.wifiBegin ∉ loop sc r := by
  by_cases h : sc = 200
  · by_cases hr : 0 ≤ stringIndexOf r redMarker <;>
    by_cases hg : 0 ≤ stringIndexOf r greenMarker <;>
    by_cases hb : 0 ≤ stringIndexOf r blueMarker <;>
      simp [loop, h, applyLEDsFromResponse, setLED, hr, hg, hb]
  · simp [loop, h]

/-- No iteration of `loop` re-initialises Serial. -/
lemma serialBegin_not_mem_loop (sc : Int) (r : List Char) :
    Event.serialBegin 9600 ∉ loop sc r := by
  by_cases h : sc = 200
  · by_cases hr : 0 ≤ stringIndexOf r redMarker <;>
    by_cases hg : 0 ≤ stringIndexOf r greenMarker <;>
    by_cases hb : 0 ≤ stringIndexOf r blueMarker <;>
      simp [loop, h, applyLEDsFromResponse, setLED, hr, hg, hb]
  · simp [loop, h]

/-- An event absent from every cycle is absent from the flattened cycles. -/
lemma count_flatten_cycles_zero (e : Event) (cs : List (Int × List Char))
    (h : ∀ sc r, e ∉ loop sc r) :
    List.count e (List.flatten (List.map (fun c => loop c.1 c.2) cs)) = 0 := by
  rw [List.count_eq_zero]
  intro hmem
  rw [List.mem_flatten] at hmem
  obtain ⟨l, hl, hel⟩ := hmem
  rw [List.mem_map] at hl
  obtain ⟨c, _, rfl⟩ := hl
  exact h c.1 c.2 hel

/-- Claim C6: during INIT the three pins are configured as outputs and
written LOW, all before the blocking connect step (`WiFi.begin`) starts;
INIT runs exactly once (one `Serial.begin`, one `WiFi.begin` in the whole
program trace) and the program then goes straight into the polling loop. -/
theorem c6_init_once_before_connect :
    (Event.pinModeOutput RED ∈ setup ∧ Event.pinModeOutput GREEN ∈ setup ∧
     Event.pinModeOutput BLUE ∈ setup ∧
     Event.digitalWrite RED false ∈ setup ∧
     Event.digitalWrite GREEN false ∈ setup ∧
     Event.digitalWrite BLUE false ∈ setup) ∧
    (List.indexOf (Event.pinModeOutput RED) setup
        < List.indexOf Event.wifiBegin setup ∧
     List.indexOf (Event.pinModeOutput GREEN) setup
        < List.indexOf Event.wifiBegin setup ∧
     List.indexOf (Event.pinModeOutput BLUE) setup
        < List.indexOf Event.wifiBegin setup ∧
     List.indexOf (Event.digitalWrite RED false) setup
        < List.indexOf Event.wifiBegin setup ∧
     List.indexOf (Event.digitalWrite GREEN false) setup
        < List.indexOf Event.wifiBegin setup ∧
     List.indexOf (Event.digitalWrite BLUE false) setup
        < List.indexOf Event.wifiBegin setup) ∧
    (∀ cycles,
      programTrace cycles
        = setup ++ List.flatten (List.map (fun c => loop c.1 c.2) cycles) ∧
      List.count Event.wifiBegin (programTrace cycles) = 1 ∧
      List.count (Event.serialBegin 9600) (programTrace cycles) = 1) := by
  refine ⟨by decide, by decide, fun cycles => ⟨rfl, ?_, ?_⟩⟩
  · rw [programTrace, List.count_append,
      count_flatten_cycles_zero _ _ wifiBegin_not_mem_loop]
    decide
  · rw [programTrace, List.count_append,
      count_flatten_cycles_zero _ _ serialBegin_not_mem_loop]
    decide

/-- Claim C7: every cycle, whatever its status code, ends with the single
fixed 2000 ms delay: the delay is the last event of the cycle and the only
delay event in it, so failed cycles are retried no faster than the normal
interval. -/
theorem c7_cycle_ends_with_2000ms_wait (sc : Int) (r : List Char) :
    List.getLast? (loop sc r) = some (Event.delayMs 2000) ∧
    List.filter isDelayEvent (loop sc r) = [Event.delayMs 2000] := by
  by_cases h : sc = 200
  · by_cases hr : 0 ≤ stringIndexOf r redMarker <;>
    by_cases hg : 0 ≤ stringIndexOf r greenMarker <;>
    by_cases hb : 0 ≤ stringIndexOf r blueMarker <;>
      simp [loop, h, applyLEDsFromResponse, setLED, isDelayEvent, hr, hg, hb]
  · simp [loop, h, isDelayEvent]

/-- Claim C8: within every 200 cycle the three pin writes happen in the
fixed order RED, GREEN, BLUE, the same order as the initial OFF writes of
`initSerialAndLEDs`. -/
theorem c8_fixed_write_order (r : List Char) :
    List.map Prod.fst (writesOf (loop 200 r)) = [RED, GREEN, BLUE] ∧
    List.map Prod.fst (writesOf initSerialAndLEDs) = [RED, GREEN, BLUE] := by
  refine ⟨?_, by decide⟩
  rw [writesOf_loop_200]
  rfl

/-- Claim C9: every 200 cycle performs exactly three digital writes, one
per indicator, with the level computed from the body alone — the write
list does not depend on the prior pin state, so a pin is rewritten even
when the new level equals the current one. -/
theorem c9_exactly_three_writes (r : List Char) :
    writesOf (loop 200 r) =
      [(RED, decide (0 ≤ stringIndexOf r redMarker)),
       (GREEN, decide (0 ≤ stringIndexOf r greenMarker)),
       (BLUE, decide (0 ≤ stringIndexOf r blueMarker))] ∧
    List.length (writesOf (loop 200 r)) = 3 := by
  refine ⟨writesOf_loop_200 r, ?_⟩
  rw [writesOf_loop_200]
  rfl

/-- Claim C10: after `setup` the three pins are LOW, and they stay LOW
through any run of cycles none of which has status 200. -/
theorem c10_low_until_first_200 (cs : List (Int × List Char)) (s : PinState)
    (h : ∀ c ∈ cs, ¬ c.1 = 200) :
    runCycles cs (runEvents setup s) RED = false ∧
    runCycles cs (runEvents setup s) GREEN = false ∧
    runCycles cs (runEvents setup s) BLUE = false := by
  rw [runCycles_ne_200 cs _ h]
  refine ⟨?_, ?_, ?_⟩ <;> rfl

/-- Witness for C10: one 404 cycle after startup leaves all pins LOW. -/
theorem c10_low_until_first_200_witness :
    (∀ c ∈ [((404 : Int), String.toList "x")], ¬ c.1 = 200) ∧
    (runCycles [((404 : Int), String.toList "x")] (runEvents setup lowState) RED
        = false ∧
     runCycles [((404 : Int), String.toList "x")] (runEvents setup lowState) GREEN
        = false ∧
     runCycles [((404 : Int), String.toList "x")] (runEvents setup lowState) BLUE
        = false) :=
  ⟨by decide, c10_low_until_first_200 _ lowState (by decide)⟩

end HDArduino
